import Mathlib

/-!
Verification of the window-geometry and region-bookkeeping core of smmap
(`smmap/util.py`).  The source is Python 2, where `/` on integers is floor
division, so `num / PAGESIZE` is embedded as `Int.fdiv`.  The platform page
size (`mmap.PAGESIZE`) is a runtime constant of the host; it is embedded as
an explicit parameter `P`, assumed positive in the theorems.
-/

namespace Smmap

/-- `align_to_page(num, round_up)` from `smmap/util.py`:
`res = (num / PAGESIZE) * PAGESIZE; if round_up and (res != num): res += PAGESIZE`.
`P` stands for the platform constant `PAGESIZE`. -/
def align_to_page (P num : Int) (round_up : Bool) : Int :=
  let res := Int.fdiv num P * P
  if round_up = true ∧ res ≠ num then res + P else res

/-- `MemoryWindow`: offset into the file in bytes, and size of the window in
bytes (`__slots__ = ('ofs', 'size')`). -/
structure MemoryWindow where
  ofs : Int
  size : Int
deriving Repr, DecidableEq

/-- `MemoryWindow.ofs_end`: `self.ofs + self.size`. -/
def MemoryWindow.ofs_end (w : MemoryWindow) : Int :=
  w.ofs + w.size

/-- `MemoryWindow.align`: `nofs = align_to_page(self.ofs, 0);
self.size += self.ofs - nofs; self.ofs = nofs;
self.size = align_to_page(self.size, 1)`. -/
def MemoryWindow.align (w : MemoryWindow) (P : Int) : MemoryWindow :=
  let nofs := align_to_page P w.ofs false
  let size1 := w.size + (w.ofs - nofs)
  { ofs := nofs, size := align_to_page P size1 true }

/-- `MemoryWindow.extend_left_to`: `rofs = self.ofs - window.ofs_end();
nsize = rofs + self.size; rofs -= nsize - min(nsize, max_size);
self.ofs = self.ofs - rofs; self.size += rofs`. -/
def MemoryWindow.extend_left_to (w window : MemoryWindow) (max_size : Int) :
    MemoryWindow :=
  let rofs := w.ofs - window.ofs_end
  let nsize := rofs + w.size
  let rofs2 := rofs - (nsize - min nsize max_size)
  { ofs := w.ofs - rofs2, size := w.size + rofs2 }

/-- `MemoryWindow.extend_right_to`:
`self.size = min(self.size + (window.ofs - self.ofs_end()), max_size)`. -/
def MemoryWindow.extend_right_to (w window : MemoryWindow) (max_size : Int) :
    MemoryWindow :=
  { ofs := w.ofs, size := min (w.size + (window.ofs - w.ofs_end)) max_size }

/-- Error raised when the platform mapping primitive fails. -/
inductive MappingError where
  | mapFailed
deriving Repr, DecidableEq

/-- Modelled from the spec: the platform mapping primitive consumed by the
core (`mmap(fd, length, access=ACCESS_READ, offset=ofs)` — library code, not
part of this repository).  Per the spec it yields a mapped byte view of the
requested length, and fails with `MappingError` when the offset is beyond
end-of-file, a zero-length (or negative-length) mapping is requested, or the
range does not fit the file.  The mapped chunk is modelled by its length
(`len(self._mf)` is all the source reads from it). -/
def mmap_prim (file_size ofs length : Int) : Except MappingError Int :=
  if length ≤ 0 ∨ ofs < 0 ∨ file_size < ofs + length then
    .error .mapFailed
  else
    .ok length

/-- `MappedRegion`: beginning of mapping `_b`, mapped memory chunk `_mf`
(modelled by its length), cached size `_size`, usage count `_uc`.  The
version-conditional compatibility layer (`_need_compat_layer`, Python < 2.6)
is excluded per the spec. -/
structure MappedRegion where
  _b : Int
  _mf : Int
  _size : Int
  _uc : Int
deriving Repr, DecidableEq

/-- `MappedRegion.__init__(path, ofs, size)`: sets `_b = ofs`, `_uc = 0`,
then `self._mf = mmap(fd, min(os.fstat(fd).st_size - ofs, size), offset=ofs)`
and `self._size = len(self._mf)`.  The opened file is represented by the size
`os.fstat(fd)` reports (`file_size`); the mapping call is `mmap_prim`.  Any
error from the mapping call propagates and no region is produced. -/
def MappedRegion.init (file_size ofs size : Int) :
    Except MappingError MappedRegion :=
  match mmap_prim file_size ofs (min (file_size - ofs) size) with
  | .error e => .error e
  | .ok len => .ok { _b := ofs, _mf := len, _size := len, _uc := 0 }

/-- `MappedRegion.ofs_begin`: `self._b`. -/
def MappedRegion.ofs_begin (r : MappedRegion) : Int :=
  r._b

/-- `MappedRegion.size`: `self._size`. -/
def MappedRegion.size (r : MappedRegion) : Int :=
  r._size

/-- `MappedRegion.ofs_end`: `self._b + self._size`. -/
def MappedRegion.ofs_end (r : MappedRegion) : Int :=
  r._b + r._size

/-- `MappedRegion.includes_ofs`: `self._b <= ofs < self._b + self._size`. -/
def MappedRegion.includes_ofs (r : MappedRegion) (ofs : Int) : Bool :=
  decide (r._b ≤ ofs) && decide (ofs < r._b + r._size)

/-- `MappedRegion.usage_count`: `self._uc`. -/
def MappedRegion.usage_count (r : MappedRegion) : Int :=
  r._uc

/-- `MappedRegion.increment_usage_count`: `self._uc += 1`. -/
def MappedRegion.increment_usage_count (r : MappedRegion) : MappedRegion :=
  { r with _uc := r._uc + 1 }

/-- `MemoryWindow.from_region`: `cls(region._b, region.size())`. -/
def MemoryWindow.from_region (region : MappedRegion) : MemoryWindow :=
  { ofs := region._b, size := region.size }

/-- `MappedRegionList`: a list of regions together with `_path` and the
lazily cached `_file_size` (initially `None`). -/
structure MappedRegionList where
  _path : String
  _file_size : Option Int
  regions : List MappedRegion
deriving Repr, DecidableEq

/-- `MappedRegionList.__init__(path)`: `self._path = path;
self._file_size = None`; the underlying list starts empty. -/
def MappedRegionList.init (path : String) : MappedRegionList :=
  { _path := path, _file_size := none, regions := [] }

/-- `MappedRegionList.path`: `self._path`. -/
def MappedRegionList.path (l : MappedRegionList) : String :=
  l._path

/-- `MappedRegionList.file_size`: `if self._file_size is None:
self._file_size = os.stat(self._path).st_size; return self._file_size`.
`stat_size` is the size `os.stat` would report at the moment of this call;
the result pairs the returned value with the updated list state. -/
def MappedRegionList.file_size (l : MappedRegionList) (stat_size : Int) :
    Int × MappedRegionList :=
  match l._file_size with
  | some s => (s, l)
  | none => (stat_size, { l with _file_size := some stat_size })

/-! ### Helper lemmas about `align_to_page` -/

theorem align_false_def (P num : Int) :
    align_to_page P num false = Int.fdiv num P * P := by
  simp [align_to_page]

theorem align_true_def (P num : Int) :
    align_to_page P num true =
      if Int.fdiv num P * P = num then num else Int.fdiv num P * P + P := by
  by_cases h : Int.fdiv num P * P = num <;> simp [align_to_page, h]

theorem align_down_eq (P num : Int) (hP : 0 < P) :
    align_to_page P num false = num - num % P := by
  rw [align_false_def, Int.fdiv_eq_ediv _ (le_of_lt hP), Int.emod_def]
  ring

theorem align_down_dvd (P num : Int) : P ∣ align_to_page P num false := by
  rw [align_false_def]
  exact dvd_mul_left P (Int.fdiv num P)

theorem align_down_le (P num : Int) (hP : 0 < P) :
    align_to_page P num false ≤ num := by
  rw [align_down_eq P num hP]
  have h := Int.emod_nonneg num (ne_of_gt hP)
  omega

theorem lt_align_down_add (P num : Int) (hP : 0 < P) :
    num < align_to_page P num false + P := by
  rw [align_down_eq P num hP]
  have h := Int.emod_lt_of_pos num hP
  omega

theorem align_down_eq_self (P num : Int) (hP : 0 < P) (h : P ∣ num) :
    align_to_page P num false = num := by
  rw [align_down_eq P num hP, Int.emod_eq_zero_of_dvd h]
  ring

theorem align_up_ge (P num : Int) (hP : 0 < P) :
    num ≤ align_to_page P num true := by
  have h1 := lt_align_down_add P num hP
  rw [align_false_def] at h1
  rw [align_true_def]
  split <;> omega

theorem align_up_sub_lt (P num : Int) (hP : 0 < P) :
    align_to_page P num true - num < P := by
  have h1 := align_down_le P num hP
  rw [align_false_def] at h1
  rw [align_true_def]
  split <;> omega

theorem align_up_dvd (P num : Int) : P ∣ align_to_page P num true := by
  rw [align_true_def]
  split
  · rename_i h
    exact h ▸ dvd_mul_left P (Int.fdiv num P)
  · exact Dvd.dvd.add (dvd_mul_left P (Int.fdiv num P)) dvd_rfl

theorem align_up_eq_self (P num : Int) (hP : 0 < P) (h : P ∣ num) :
    align_to_page P num true = num := by
  have hd := align_down_eq_self P num hP h
  rw [align_false_def] at hd
  rw [align_true_def]
  simp [hd]

/-! ### Helper lemmas about the window transforms -/

theorem align_ofs (w : MemoryWindow) (P : Int) :
    (w.align P).ofs = align_to_page P w.ofs false :=
  rfl

theorem align_size (w : MemoryWindow) (P : Int) :
    (w.align P).size =
      align_to_page P (w.size + (w.ofs - align_to_page P w.ofs false)) true :=
  rfl

theorem align_fixed (P : Int) (w : MemoryWindow) (hP : 0 < P)
    (ho : P ∣ w.ofs) (hs : P ∣ w.size) : w.align P = w := by
  obtain ⟨o, s⟩ := w
  simp only at ho hs
  simp only [MemoryWindow.align, align_down_eq_self P o hP ho]
  rw [show s + (o - o) = s by ring, align_up_eq_self P s hP hs]

theorem extend_left_to_eq (w n : MemoryWindow) (m : Int) :
    w.extend_left_to n m =
      { ofs := w.ofs_end - min (w.ofs - n.ofs_end + w.size) m,
        size := min (w.ofs - n.ofs_end + w.size) m } := by
  simp only [MemoryWindow.extend_left_to, MemoryWindow.ofs_end,
    MemoryWindow.mk.injEq]
  omega

/-! ### Claim theorems -/

/-- C1: for every window with non-negative offset and size and positive
granularity `P`, `align` produces a window whose byte range contains the
original one — the new offset is at most the old offset, the new end is at
least the old end — and the new offset and size are multiples of `P`. -/
theorem c1_align_contains (P : Int) (w : MemoryWindow) (hP : 0 < P)
    (h1 : 0 ≤ w.ofs) (h2 : 0 ≤ w.size) :
    (w.align P).ofs ≤ w.ofs ∧
    w.ofs + w.size ≤ (w.align P).ofs + (w.align P).size ∧
    P ∣ (w.align P).ofs ∧ P ∣ (w.align P).size := by
  rw [align_ofs, align_size]
  refine ⟨align_down_le P w.ofs hP, ?_, align_down_dvd P w.ofs,
    align_up_dvd P _⟩
  have hu := align_up_ge P (w.size + (w.ofs - align_to_page P w.ofs false)) hP
  have hd := align_down_le P w.ofs hP
  omega

/-- Witness for C1 at `P = 4096`, `w = MemoryWindow(10, 100)` (which aligns
to `MemoryWindow(0, 4096)`). -/
theorem c1_align_contains_witness :
    ((MemoryWindow.mk 10 100).align 4096).ofs ≤ 10 ∧
    (10 : Int) + 100 ≤
      ((MemoryWindow.mk 10 100).align 4096).ofs +
        ((MemoryWindow.mk 10 100).align 4096).size ∧
    (4096 : Int) ∣ ((MemoryWindow.mk 10 100).align 4096).ofs ∧
    (4096 : Int) ∣ ((MemoryWindow.mk 10 100).align 4096).size :=
  c1_align_contains 4096 ⟨10, 100⟩ (by decide) (by decide) (by decide)

/-- C2: for `num ≥ 0` and positive granularity `P`,
`align_to_page P num false` is a multiple of `P` with
`align(num,false) ≤ num < align(num,false) + P`, and
`align_to_page P num true` is a multiple of `P` with `align(num,true) ≥ num`
and `align(num,true) - num < P`, and if `num` is already a multiple of `P`
then `align(num,true) = num`. -/
theorem c2_align_to_page_bounds (P num : Int) (hP : 0 < P) (hn : 0 ≤ num) :
    P ∣ align_to_page P num false ∧
    align_to_page P num false ≤ num ∧
    num < align_to_page P num false + P ∧
    P ∣ align_to_page P num true ∧
    num ≤ align_to_page P num true ∧
    align_to_page P num true - num < P ∧
    (P ∣ num → align_to_page P num true = num) :=
  ⟨align_down_dvd P num, align_down_le P num hP, lt_align_down_add P num hP,
   align_up_dvd P num, align_up_ge P num hP, align_up_sub_lt P num hP,
   fun h => align_up_eq_self P num hP h⟩

/-- Witness for C2 at `P = 4096`, `num = 5000`. -/
theorem c2_align_to_page_bounds_witness :
    (4096 : Int) ∣ align_to_page 4096 5000 false ∧
    align_to_page 4096 5000 false ≤ 5000 ∧
    (5000 : Int) < align_to_page 4096 5000 false + 4096 ∧
    (4096 : Int) ∣ align_to_page 4096 5000 true ∧
    (5000 : Int) ≤ align_to_page 4096 5000 true ∧
    align_to_page 4096 5000 true - 5000 < 4096 ∧
    ((4096 : Int) ∣ 5000 → align_to_page 4096 5000 true = 5000) :=
  c2_align_to_page_bounds 4096 5000 (by decide) (by decide)

/-- C3: for windows `w` and `n` with `n.ofs_end ≤ w.ofs`,
`extend_left_to` leaves the right edge `ofs_end` unchanged, yields
`size = min((w.ofs - n.ofs_end) + w.size, max_size)` and
`ofs = w.ofs_end - size`, and when the pre-call size is at most `max_size`
the size does not decrease. -/
theorem c3_extend_left_to_spec (w n : MemoryWindow) (max_size : Int)
    (h : n.ofs_end ≤ w.ofs) :
    (w.extend_left_to n max_size).ofs_end = w.ofs_end ∧
    (w.extend_left_to n max_size).size =
      min (w.ofs - n.ofs_end + w.size) max_size ∧
    (w.extend_left_to n max_size).ofs =
      w.ofs_end - (w.extend_left_to n max_size).size ∧
    (w.size ≤ max_size → w.size ≤ (w.extend_left_to n max_size).size) := by
  obtain ⟨wo, ws⟩ := w
  obtain ⟨no, ns⟩ := n
  simp only [MemoryWindow.ofs_end] at h
  refine ⟨?_, ?_, ?_, fun hs => ?_⟩ <;>
    simp only [extend_left_to_eq, MemoryWindow.ofs_end] at * <;> omega

/-- Witness for C3 at `w = MemoryWindow(8192, 100)`,
`n = MemoryWindow(0, 4096)`, `max_size = 8192`. -/
theorem c3_extend_left_to_spec_witness :
    ((MemoryWindow.mk 8192 100).extend_left_to
        (MemoryWindow.mk 0 4096) 8192).ofs_end =
      (MemoryWindow.mk 8192 100).ofs_end ∧
    ((MemoryWindow.mk 8192 100).extend_left_to
        (MemoryWindow.mk 0 4096) 8192).size =
      min ((8192 : Int) - (MemoryWindow.mk 0 4096).ofs_end + 100) 8192 ∧
    ((MemoryWindow.mk 8192 100).extend_left_to
        (MemoryWindow.mk 0 4096) 8192).ofs =
      (MemoryWindow.mk 8192 100).ofs_end -
        ((MemoryWindow.mk 8192 100).extend_left_to
          (MemoryWindow.mk 0 4096) 8192).size ∧
    ((100 : Int) ≤ 8192 →
      (100 : Int) ≤ ((MemoryWindow.mk 8192 100).extend_left_to
        (MemoryWindow.mk 0 4096) 8192).size) :=
  c3_extend_left_to_spec ⟨8192, 100⟩ ⟨0, 4096⟩ 8192 (by decide)

/-- C4: `extend_right_to` never changes the offset, the resulting size is
`min(size + (n.ofs - ofs_end), max_size)` and hence never exceeds
`max_size`; and `MemoryWindow(4096, 2048)` extended toward a neighbor at
offset 8192 with `max_size = 8192` becomes `MemoryWindow(4096, 4096)`. -/
theorem c4_extend_right_to_spec (w n : MemoryWindow) (max_size : Int) :
    (w.extend_right_to n max_size).ofs = w.ofs ∧
    (w.extend_right_to n max_size).size =
      min (w.size + (n.ofs - w.ofs_end)) max_size ∧
    (w.extend_right_to n max_size).size ≤ max_size ∧
    (MemoryWindow.mk 4096 2048).extend_right_to
        (MemoryWindow.mk 8192 4096) 8192 =
      MemoryWindow.mk 4096 4096 :=
  ⟨rfl, rfl, min_le_right _ _, by decide⟩

/-- C5: whenever `MappedRegion.init` succeeds, the created region has
`_size = min(file_size - ofs, size)` and `_b = ofs`, and its byte range
never extends past end-of-file. -/
theorem c5_region_size (file_size ofs size : Int) (r : MappedRegion)
    (h : MappedRegion.init file_size ofs size = Except.ok r) :
    r._size = min (file_size - ofs) size ∧ r._b = ofs ∧
      r._b + r._size ≤ file_size := by
  unfold MappedRegion.init mmap_prim at h
  split at h
  · exact Except.noConfusion h
  · rename_i hcond
    split at hcond
    · exact Except.noConfusion hcond
    · rename_i hite
      push_neg at hite
      injection hcond with hcond
      injection h with h
      subst h
      subst hcond
      exact ⟨rfl, rfl, hite.2.2⟩

/-- Witness for C5: a file of 100 bytes, offset 0, requested size 200 —
the region is created with size 100 (`min(100 - 0, 200)`), clipped at
end-of-file exactly as the claim's particular case demands. -/
theorem c5_region_size_witness :
    (MappedRegion.mk 0 100 100 0)._size = min ((100 : Int) - 0) 200 ∧
    (MappedRegion.mk 0 100 100 0)._b = 0 ∧
    (MappedRegion.mk 0 100 100 0)._b + (MappedRegion.mk 0 100 100 0)._size ≤
      100 :=
  c5_region_size 100 0 200 ⟨0, 100, 100, 0⟩ rfl

/-- C6: when the offset lies beyond end-of-file or the requested mapping is
zero-length, `MappedRegion.init` fails with a `MappingError` and returns no
region at all. -/
theorem c6_region_error (file_size ofs size : Int)
    (h : file_size < ofs ∨ size = 0) :
    MappedRegion.init file_size ofs size =
      Except.error MappingError.mapFailed := by
  have hc : min (file_size - ofs) size ≤ 0 ∨ ofs < 0 ∨
      file_size < ofs + min (file_size - ofs) size := by
    left
    omega
  unfold MappedRegion.init mmap_prim
  rw [if_pos hc]

/-- Witness for C6: a 100-byte file with offset 200 (beyond end-of-file)
yields a `MappingError`. -/
theorem c6_region_error_witness :
    ((100 : Int) < 200 ∨ (50 : Int) = 0) ∧
    MappedRegion.init 100 200 50 =
      Except.error MappingError.mapFailed :=
  ⟨Or.inl (by decide), c6_region_error 100 200 50 (Or.inl (by decide))⟩

/-- C7: on a fresh `MappedRegionList` the first `file_size` call returns the
stat result and caches it, and a later call — even when the file size on
disk has changed to an arbitrary `s2` — returns the same cached value and
leaves the state untouched (the cache is never invalidated). -/
theorem c7_file_size_cached (path : String) (s1 s2 : Int) :
    ((MappedRegionList.init path).file_size s1).1 = s1 ∧
    ((MappedRegionList.init path).file_size s1).2._file_size = some s1 ∧
    ((MappedRegionList.init path).file_size s1).2.file_size s2 =
      (s1, ((MappedRegionList.init path).file_size s1).2) :=
  ⟨rfl, rfl, rfl⟩

/-- C8: `includes_ofs` returns `true` exactly when
`_b ≤ ofs < _b + _size`. -/
theorem c8_includes_ofs_iff (r : MappedRegion) (ofs : Int) :
    r.includes_ofs ofs = true ↔ r._b ≤ ofs ∧ ofs < r._b + r._size := by
  simp [MappedRegion.includes_ofs]

/-- C9: `align` is idempotent — for any window with non-negative offset and
size and positive granularity, aligning a second time changes nothing. -/
theorem c9_align_idempotent (P : Int) (w : MemoryWindow) (hP : 0 < P)
    (h1 : 0 ≤ w.ofs) (h2 : 0 ≤ w.size) :
    (w.align P).align P = w.align P :=
  align_fixed P (w.align P) hP
    (by rw [align_ofs]; exact align_down_dvd P w.ofs)
    (by rw [align_size]; exact align_up_dvd P _)

/-- Witness for C9 at `P = 4096`, `w = MemoryWindow(10, 100)`. -/
theorem c9_align_idempotent_witness :
    ((MemoryWindow.mk 10 100).align 4096).align 4096 =
      (MemoryWindow.mk 10 100).align 4096 :=
  c9_align_idempotent 4096 ⟨10, 100⟩ (by decide) (by decide) (by decide)

/-- C10: `increment_usage_count` adds exactly one to the usage count and
leaves the beginning of the mapping, the cached size and the mapped buffer
unchanged. -/
theorem c10_increment_usage_count_spec (r : MappedRegion) :
    r.increment_usage_count.usage_count = r.usage_count + 1 ∧
    r.increment_usage_count._uc = r._uc + 1 ∧
    r.increment_usage_count._b = r._b ∧
    r.increment_usage_count._size = r._size ∧
    r.increment_usage_count._mf = r._mf :=
  ⟨rfl, rfl, rfl, rfl, rfl⟩

end Smmap
